import Mathlib

set_option linter.unusedVariables false

/-!
Shallow embedding of the presence / call-signaling hub implemented in
`src/api/index.js` (the socket.io server).  The server's mutable state is:

* `io.sockets` — the set of currently connected sockets (modelled as `live`);
* the per-connection closure variable `currentUserId` (modelled as the
  association list `currentUser : socketId → userId`);
* `activeUsers : Map<userId, Set<socketId>>`;
* `activeCalls : Map<callId, {participants, status, createdAt}>`.

JS `Map` and `Set` preserve insertion order and key uniqueness; both are
modelled as association lists / duplicate-free appended lists with the
helpers below.  Each socket.io handler becomes a pure function
`HubState → HubState × List (String × SEvent)` returning the next state and
the list of `(receiving socket, event)` emissions, in emission order.
-/

namespace ChatHub

/-- JS `Map.get`: first binding for the key, if any. -/
def assocGet (m : List (String × α)) (k : String) : Option α :=
  match m with
  | [] => none
  | (k', v) :: rest => if k' = k then some v else assocGet rest k

/-- JS `Map.set`: replace the binding in place, else append (insertion order kept). -/
def assocSet (m : List (String × α)) (k : String) (v : α) : List (String × α) :=
  match m with
  | [] => [(k, v)]
  | (k', v') :: rest => if k' = k then (k, v) :: rest else (k', v') :: assocSet rest k v

/-- JS `Map.delete`. -/
def assocDelete (m : List (String × α)) (k : String) : List (String × α) :=
  m.filter (fun p => p.1 ≠ k)

/-- Call lifecycle states that actually occur in the source: records are
created `pending` and flipped to `active` by the accept handler. -/
inductive CallStatus
  | pending
  | active
deriving DecidableEq, Repr

/-- `activeCalls` entry: `{ participants: [callerId, calleeId], status, createdAt }`. -/
structure CallRecord where
  participants : List String
  status : CallStatus
  createdAt : Nat
deriving DecidableEq, Repr

/-- `reason` strings carried by failure / termination events. -/
inductive Reason
  | invalidParameters
  | selfCall
  | userOffline
  | userBusy
  | callNotFound
  | invalidState
  | callerUnavailable
  | timeout
  | userDisconnected
deriving DecidableEq, Repr

/-- Server-to-client events emitted by the hub. -/
inductive SEvent
  | userOnline (userId username : String)
  | userOffline (userId : String)
  | callFailed (reason : Reason)
  | callNotAvailable (userId : String) (reason : Reason)
  | incomingCall (callId callerId callerName : String)
  | callRinging (callId : String)
  | callAccepted (callId calleeId : String)
  | callRejected (callId calleeId : String)
  | callEnded (callId : String) (reason : Reason)
deriving DecidableEq, Repr

/-- The hub's whole mutable state. -/
structure HubState where
  live : List String
  currentUser : List (String × String)
  activeUsers : List (String × List String)
  activeCalls : List (String × CallRecord)
deriving DecidableEq, Repr

def HubState.init : HubState := ⟨[], [], [], []⟩

/-- The socket-id set registered for a user (`activeUsers.get(u)`, empty if absent). -/
def socketsOf (st : HubState) (u : String) : List String :=
  (assocGet st.activeUsers u).getD []

/-- Presence, derived from registry non-emptiness (spec §4.1 `isOnline`). -/
def isOnline (st : HubState) (u : String) : Bool :=
  !(socketsOf st u).isEmpty

/-- Emit an event to each of the given sockets that is still connected
(`io.sockets.sockets.get(socketId)` guard before each `emit`). -/
def emitEach (st : HubState) (targets : List String) (e : SEvent) :
    List (String × SEvent) :=
  (targets.filter (fun t => st.live.contains t)).map (fun t => (t, e))

/-- `userSockets.delete(socketId)` guarded by `if (userSockets)`:
remove a socket from one user's set, keeping the (possibly empty) entry. -/
def removeSocketFromUser (m : List (String × List String)) (u sid : String) :
    List (String × List String) :=
  match assocGet m u with
  | none => m
  | some l => assocSet m u (l.filter (fun s => s ≠ sid))

/-- A socket opens a connection (`io.on('connection', …)`). -/
def handleConnect (st : HubState) (sid : String) : HubState :=
  if st.live.contains sid then st else { st with live := st.live ++ [sid] }

/-- Eviction of one prior socket during `register` (Step 2 of the handler):
`oldSocket.disconnect(true)` fires that socket's own `disconnect` handler,
which removes it from `io.sockets` and from `activeUsers.get(itsCurrentUserId)`.
A socket id that is no longer connected is skipped (the `if (oldSocket)` guard),
and the registering socket itself is skipped. -/
def evictOne (st : HubState) (keep old : String) : HubState :=
  if old = keep then st
  else if st.live.contains old then
    { st with
      live := st.live.filter (fun s => s ≠ old),
      activeUsers :=
        match assocGet st.currentUser old with
        | none => st.activeUsers
        | some u2 => removeSocketFromUser st.activeUsers u2 old }
  else st

/-- `socket.on('register')`.  `users` is the identity store consulted by
`User.findById(userId, 'username')`, modelled as a pure partial map; the
display name falls back to `'Unknown'`.  Steps follow the source:
set `currentUserId`; force-disconnect every prior socket of this user;
add this socket to the user's set; broadcast `user-online` to every other
connected socket. -/
def handleRegister (users : List (String × String)) (st : HubState)
    (sid uid : String) : HubState × List (String × SEvent) :=
  let st1 : HubState := { st with currentUser := assocSet st.currentUser sid uid }
  let olds := (assocGet st1.activeUsers uid).getD []
  let st2 := olds.foldl (fun s old => evictOne s sid old) st1
  let st3 : HubState :=
    { st2 with
      activeUsers :=
        match assocGet st2.activeUsers uid with
        | none => assocSet st2.activeUsers uid [sid]
        | some l =>
          if l.contains sid then st2.activeUsers
          else assocSet st2.activeUsers uid (l ++ [sid]) }
  let uname := (assocGet users uid).getD "Unknown"
  (st3, (st3.live.filter (fun t => t ≠ sid)).map (fun t => (t, SEvent.userOnline uid uname)))

/-- Immediate part of `socket.on('disconnect')`: the socket leaves
`io.sockets`, and if it had registered, it is removed from that user's
socket set.  The 2-second grace timer body is `graceFire` below. -/
def handleDisconnect (st : HubState) (sid : String) : HubState :=
  let live1 := st.live.filter (fun s => s ≠ sid)
  match assocGet st.currentUser sid with
  | none => { st with live := live1 }
  | some u => { st with live := live1,
                        activeUsers := removeSocketFromUser st.activeUsers u sid }

/-- Body of the 2-second `setTimeout` scheduled by the disconnect handler for
user `u`: if the user still has no sockets, delete the registry entry,
broadcast `user-offline` to every connected socket, and tear down every call
involving `u` (emitting `call-ended`/`user-disconnected` to the other
participant's connected sockets, then deleting the record). -/
def graceFire (st : HubState) (u : String) : HubState × List (String × SEvent) :=
  match assocGet st.activeUsers u with
  | some (_ :: _) => (st, [])
  | _ =>
    let users1 := assocDelete st.activeUsers u
    let offline := st.live.map (fun t => (t, SEvent.userOffline u))
    let doomed := st.activeCalls.filter (fun p => p.2.participants.contains u)
    let endEvts := doomed.flatMap (fun p =>
      match p.2.participants.find? (fun i => i ≠ u) with
      | none => []
      | some other =>
        emitEach st ((assocGet users1 other).getD []) (SEvent.callEnded p.1 Reason.userDisconnected))
    ({ st with activeUsers := users1,
               activeCalls := st.activeCalls.filter (fun p => !(p.2.participants.contains u)) },
     offline ++ endEvts)

/-- `socket.on('call-request')`, with the source's check order: empty-field
validation, self-call, callee offline, callee busy (some `active` record has
the callee as a participant), then record creation and notification. -/
def handleCallRequest (st : HubState) (now : Nat)
    (sender callId calleeId callerId callerName : String) :
    HubState × List (String × SEvent) :=
  if callId = "" ∨ calleeId = "" ∨ callerId = "" then
    (st, [(sender, SEvent.callFailed Reason.invalidParameters)])
  else if callerId = calleeId then
    (st, [(sender, SEvent.callFailed Reason.selfCall)])
  else
    let calleeSockets := socketsOf st calleeId
    if calleeSockets.isEmpty then
      (st, [(sender, SEvent.callNotAvailable calleeId Reason.userOffline)])
    else if st.activeCalls.any
        (fun p => p.2.participants.contains calleeId && p.2.status == CallStatus.active) then
      (st, [(sender, SEvent.callNotAvailable calleeId Reason.userBusy)])
    else
      ({ st with activeCalls :=
          assocSet st.activeCalls callId ⟨[callerId, calleeId], CallStatus.pending, now⟩ },
       emitEach st calleeSockets (SEvent.incomingCall callId callerId callerName)
         ++ [(sender, SEvent.callRinging callId)])

/-- `socket.on('call-accepted')`: missing record → `call-not-found`; record
not pending → `invalid-state`; otherwise flip to `active` and notify the
caller's connected sockets — unless the caller's registry set is empty, in
which case the accepter gets `caller-unavailable` and the record is deleted. -/
def handleCallAccepted (st : HubState)
    (sender callId calleeId callerId : String) :
    HubState × List (String × SEvent) :=
  match assocGet st.activeCalls callId with
  | none => (st, [(sender, SEvent.callFailed Reason.callNotFound)])
  | some call =>
    if call.status ≠ CallStatus.pending then
      (st, [(sender, SEvent.callFailed Reason.invalidState)])
    else
      let callerSockets := socketsOf st callerId
      if callerSockets.isEmpty then
        ({ st with activeCalls := assocDelete st.activeCalls callId },
         [(sender, SEvent.callFailed Reason.callerUnavailable)])
      else
        ({ st with activeCalls :=
            assocSet st.activeCalls callId { call with status := CallStatus.active } },
         emitEach st callerSockets (SEvent.callAccepted callId calleeId))

/-- `socket.on('call-rejected')`: missing record → silent return; otherwise
notify the caller's connected sockets and delete the record whatever its state. -/
def handleCallRejected (st : HubState)
    (sender callId calleeId callerId : String) :
    HubState × List (String × SEvent) :=
  match assocGet st.activeCalls callId with
  | none => (st, [])
  | some _ =>
    ({ st with activeCalls := assocDelete st.activeCalls callId },
     emitEach st (socketsOf st callerId) (SEvent.callRejected callId calleeId))

/-- The reaper's staleness test: `call.status === 'pending' && now - call.createdAt > 30000`. -/
def isStale (now : Nat) (c : CallRecord) : Bool :=
  decide (c.status = CallStatus.pending) && decide (now - c.createdAt > 30000)

/-- One tick of the 10-second `setInterval` reaper: every stale pending record
is removed, after a `call-failed`/`timeout` to each connected socket of the
caller (`participants[0]`). -/
def handleReaperTick (st : HubState) (now : Nat) :
    HubState × List (String × SEvent) :=
  let evts := (st.activeCalls.filter (fun p => isStale now p.2)).flatMap (fun p =>
    match p.2.participants with
    | [] => []
    | callerId :: _ => emitEach st (socketsOf st callerId) (SEvent.callFailed Reason.timeout))
  ({ st with activeCalls := st.activeCalls.filter (fun p => !(isStale now p.2)) }, evts)

/-- The hub's external stimuli: client messages, socket lifecycle, and the
two timer-driven events (per-disconnect grace timer, periodic reaper). -/
inductive HubEvent
  | connect (sid : String)
  | register (sid uid : String)
  | callRequest (now : Nat) (sid callId calleeId callerId callerName : String)
  | accept (sid callId calleeId callerId : String)
  | reject (sid callId calleeId callerId : String)
  | disconnect (sid : String)
  | grace (uid : String)
  | reaperTick (now : Nat)
deriving DecidableEq, Repr

/-- One serialized step of the event loop. -/
def step (users : List (String × String)) (st : HubState) (e : HubEvent) :
    HubState × List (String × SEvent) :=
  match e with
  | HubEvent.connect sid => (handleConnect st sid, [])
  | HubEvent.register sid uid => handleRegister users st sid uid
  | HubEvent.callRequest now sid callId calleeId callerId callerName =>
      handleCallRequest st now sid callId calleeId callerId callerName
  | HubEvent.accept sid callId calleeId callerId =>
      handleCallAccepted st sid callId calleeId callerId
  | HubEvent.reject sid callId calleeId callerId =>
      handleCallRejected st sid callId calleeId callerId
  | HubEvent.disconnect sid => (handleDisconnect st sid, [])
  | HubEvent.grace uid => graceFire st uid
  | HubEvent.reaperTick now => handleReaperTick st now

/-- Run a trace of events, keeping only the final state. -/
def run (users : List (String × String)) (st : HubState) :
    List HubEvent → HubState
  | [] => st
  | e :: rest => run users (step users st e).1 rest

/-- The spec's `CallRecord` invariant: at most one `active` record references
a given user as a participant (two `active` bindings sharing a participant
must be the same binding). -/
def ActiveUniqueInv (st : HubState) : Prop :=
  ∀ cid1 cid2 c1 c2 u, assocGet st.activeCalls cid1 = some c1 →
    assocGet st.activeCalls cid2 = some c2 →
    c1.status = CallStatus.active → c2.status = CallStatus.active →
    u ∈ c1.participants → u ∈ c2.participants → cid1 = cid2

/-- The spec's registry invariant: a socket id appears in the socket set of
at most one user. -/
def HandleUniqueInv (st : HubState) : Prop :=
  ∀ u1 u2 s, s ∈ socketsOf st u1 → s ∈ socketsOf st u2 → u1 = u2

/-- Auxiliary strengthening of `HandleUniqueInv`: every socket appearing in
some user's set last registered as exactly that user. -/
def RegInv (st : HubState) : Prop :=
  ∀ u s, s ∈ socketsOf st u → assocGet st.currentUser s = some u

/-- Trace well-formedness for the registry invariant: every `register` comes
from a socket that is currently connected and that never registers under two
different user ids (socket.io socket ids are fresh per connection, so a given
id only ever represents one client session). -/
def okTrace (users : List (String × String)) (st : HubState) :
    List HubEvent → Bool
  | [] => true
  | e :: rest =>
    (match e with
     | HubEvent.register sid uid =>
        st.live.contains sid && ((assocGet st.currentUser sid).getD uid == uid)
     | _ => true)
    && okTrace users (step users st e).1 rest

/-- Identity store used by the concrete scenarios. -/
def sampleUsers : List (String × String) := [("A", "alice"), ("B", "bob"), ("C", "carol")]

/-- A, B, C register; A calls B and C calls B (both pending, so the busy check
passes); B accepts both calls. -/
def traceDoubleActive : List HubEvent :=
  [ HubEvent.connect "sA", HubEvent.register "sA" "A",
    HubEvent.connect "sB", HubEvent.register "sB" "B",
    HubEvent.connect "sC", HubEvent.register "sC" "C",
    HubEvent.callRequest 0 "sA" "call1" "B" "A" "alice",
    HubEvent.callRequest 1 "sC" "call2" "B" "C" "carol",
    HubEvent.accept "sB" "call1" "B" "A",
    HubEvent.accept "sB" "call2" "B" "C" ]

/-- One socket registers as user A and then re-registers as user B. -/
def traceDualRegister : List HubEvent :=
  [ HubEvent.connect "s1", HubEvent.register "s1" "A", HubEvent.register "s1" "B" ]

/-- A, B, C register and A calls B with callId "X" (record left pending). -/
def traceCollision : List HubEvent :=
  [ HubEvent.connect "sA", HubEvent.register "sA" "A",
    HubEvent.connect "sB", HubEvent.register "sB" "B",
    HubEvent.connect "sC", HubEvent.register "sC" "C",
    HubEvent.callRequest 0 "sA" "X" "B" "A" "alice" ]

/-- A and B register, A calls B, B accepts: one active call, as in the spec's
end-to-end disconnect scenario. -/
def traceActiveCall : List HubEvent :=
  [ HubEvent.connect "s1", HubEvent.register "s1" "A",
    HubEvent.connect "s2", HubEvent.register "s2" "B",
    HubEvent.callRequest 0 "s1" "c1" "B" "A" "alice",
    HubEvent.accept "s2" "c1" "B" "A" ]

/-- Hex-digit test used by the ObjectId cast check. -/
def isHexDigit (c : Char) : Bool :=
  c.isDigit || ('a' ≤ c && c ≤ 'f') || ('A' ≤ c && c ≤ 'F')

/-- Whether a string casts to a Mongo ObjectId (`mongoose.Types.ObjectId`):
a 24-character hex string, or a 12-character string taken as 12 raw bytes.
The `User` schema (`models/User.js`) uses the default ObjectId `_id`, so
`User.findById(userId)` rejects with a CastError exactly when this is false —
in particular for the empty string. -/
def castsToObjectId (s : String) : Bool :=
  s.length == 12 || (s.length == 24 && s.data.all isHexDigit)

/-- `socket.on('register')` with the fallible identity lookup made explicit:
the registry mutation (Steps 1-3 of the handler) happens before
`await User.findById(userId, 'username')`, so it takes effect for every
`userId`; when the cast fails, the rejected `await` aborts the async handler
and the `user-online` broadcast (Step 5) is never emitted.  When the cast
succeeds the handler is exactly `handleRegister` (lookup resolving to a user
or to null, with the `'Unknown'` fallback). -/
def handleRegisterF (users : List (String × String)) (st : HubState)
    (sid uid : String) : HubState × List (String × SEvent) :=
  if castsToObjectId uid then handleRegister users st sid uid
  else ((handleRegister users st sid uid).1, [])

/-! ### Association-list lemmas -/

theorem assocGet_set_self {α : Type} (m : List (String × α)) (k : String) (v : α) :
    assocGet (assocSet m k v) k = some v := by
  induction m with
  | nil => simp [assocSet, assocGet]
  | cons p rest ih =>
    by_cases h : p.1 = k
    · simp [assocSet, assocGet, h]
    · simp [assocSet, assocGet, h, ih]

theorem assocGet_set_ne {α : Type} (m : List (String × α)) {k k' : String} (v : α)
    (h : k' ≠ k) : assocGet (assocSet m k v) k' = assocGet m k' := by
  have hk : ¬ k = k' := fun hh => h hh.symm
  induction m with
  | nil => simp [assocSet, assocGet, hk]
  | cons p rest ih =>
    by_cases h0 : p.1 = k
    · simp [assocSet, assocGet, h0, hk]
    · simp only [assocSet, if_neg h0]
      by_cases h1 : p.1 = k'
      · simp [assocGet, h1]
      · simp [assocGet, h1, ih]

theorem assocGet_eq_none_of_not_mem_keys {α : Type} {m : List (String × α)} {k : String}
    (h : k ∉ m.map Prod.fst) : assocGet m k = none := by
  induction m with
  | nil => rfl
  | cons p rest ih =>
    simp only [List.map_cons, List.mem_cons] at h
    push_neg at h
    have h1 : ¬ p.1 = k := fun hh => h.1 hh.symm
    simp [assocGet, h1, ih h.2]

theorem assocGet_mem {α : Type} {m : List (String × α)} {k : String} {v : α}
    (h : assocGet m k = some v) : (k, v) ∈ m := by
  induction m with
  | nil => simp [assocGet] at h
  | cons p rest ih =>
    by_cases h0 : p.1 = k
    · simp only [assocGet, if_pos h0] at h
      cases h
      apply List.mem_cons.2
      left
      cases p
      simp_all
    · simp only [assocGet, if_neg h0] at h
      exact List.mem_cons_of_mem _ (ih h)

theorem assocGet_filter_none {α : Type} {m : List (String × α)} {k : String}
    (q : String × α → Bool) (h : assocGet m k = none) :
    assocGet (m.filter q) k = none := by
  induction m with
  | nil => rfl
  | cons p rest ih =>
    by_cases h0 : p.1 = k
    · simp [assocGet, h0] at h
    · simp only [assocGet, if_neg h0] at h
      by_cases hq : q p
      · have hkeep : List.filter q (p :: rest) = p :: List.filter q rest := by
          simp [List.filter_cons, hq]
        rw [hkeep]
        simp only [assocGet, if_neg h0]
        exact ih h
      · have hdrop : List.filter q (p :: rest) = List.filter q rest := by
          simp [List.filter_cons, hq]
        rw [hdrop]
        exact ih h

theorem assocGet_filter_of_nodup {α : Type} {m : List (String × α)} {k : String} {v : α}
    (q : String × α → Bool) (hnd : (m.map Prod.fst).Nodup)
    (h : assocGet m k = some v) :
    assocGet (m.filter q) k = if q (k, v) then some v else none := by
  induction m with
  | nil => simp [assocGet] at h
  | cons p rest ih =>
    simp only [List.map_cons, List.nodup_cons] at hnd
    by_cases h0 : p.1 = k
    · have hpkv : p = (k, v) := by
        simp only [assocGet, if_pos h0] at h
        cases p
        simp_all
      subst hpkv
      by_cases hq : q (k, v)
      · rw [if_pos hq]
        have hkeep : List.filter q ((k, v) :: rest) = (k, v) :: List.filter q rest := by
          simp [List.filter_cons, hq]
        rw [hkeep]
        simp [assocGet]
      · rw [if_neg hq]
        have hdrop : List.filter q ((k, v) :: rest) = List.filter q rest := by
          simp [List.filter_cons, hq]
        rw [hdrop]
        exact assocGet_filter_none q (assocGet_eq_none_of_not_mem_keys (by simpa using hnd.1))
    · simp only [assocGet, if_neg h0] at h
      by_cases hq : q p
      · have hkeep : List.filter q (p :: rest) = p :: List.filter q rest := by
          simp [List.filter_cons, hq]
        rw [hkeep]
        simp only [assocGet, if_neg h0]
        exact ih hnd.2 h
      · have hdrop : List.filter q (p :: rest) = List.filter q rest := by
          simp [List.filter_cons, hq]
        rw [hdrop]
        exact ih hnd.2 h

theorem assocGet_delete {α : Type} (m : List (String × α)) (k k' : String) :
    assocGet (assocDelete m k) k' = if k' = k then none else assocGet m k' := by
  induction m with
  | nil => simp [assocDelete, assocGet]
  | cons p rest ih =>
    by_cases h0 : p.1 = k
    · have hdrop : assocDelete (p :: rest) k = assocDelete rest k := by
        simp [assocDelete, List.filter_cons, h0]
      rw [hdrop, ih]
      by_cases h1 : k' = k
      · simp [h1]
      · have h2 : ¬ p.1 = k' := by
          rw [h0]
          exact fun hh => h1 hh.symm
        simp [assocGet, h1, h2]
    · have hkeep : assocDelete (p :: rest) k = p :: assocDelete rest k := by
        simp [assocDelete, List.filter_cons, h0]
      rw [hkeep]
      by_cases h1 : p.1 = k'
      · have h2 : ¬ k' = k := by
          rw [← h1]
          exact h0
        simp [assocGet, h1, h2]
      · simp only [assocGet, if_neg h1]
        exact ih

/-! ### Emission and counting lemmas -/

theorem mem_emitEach {st : HubState} {targets : List String} {e : SEvent}
    {t : String} {e' : SEvent} :
    (t, e') ∈ emitEach st targets e ↔ t ∈ targets ∧ st.live.contains t = true ∧ e' = e := by
  simp only [emitEach, List.mem_map, List.mem_filter, Prod.mk.injEq]
  constructor
  · rintro ⟨x, ⟨hx, hl⟩, rfl, rfl⟩
    exact ⟨hx, hl, rfl⟩
  · rintro ⟨hx, hl, rfl⟩
    exact ⟨t, ⟨hx, hl⟩, rfl, rfl⟩

theorem countP_eq_one_of_nodup {α : Type} [DecidableEq α] {l : List α} {a : α}
    (d : l.Nodup) (h : a ∈ l) : l.countP (fun x => decide (x = a)) = 1 := by
  induction l with
  | nil => cases h
  | cons b t ih =>
    rcases List.mem_cons.1 h with rfl | hm
    · rw [List.countP_cons_of_pos _ _ (by simp)]
      have : t.countP (fun x => decide (x = a)) = 0 :=
        List.countP_eq_zero.2 (fun x hx => by
          simp only [decide_eq_true_eq]
          rintro rfl
          exact (List.nodup_cons.1 d).1 hx)
      omega
    · have hb : b ≠ a := by
        rintro rfl
        exact (List.nodup_cons.1 d).1 hm
      rw [List.countP_cons_of_neg _ _ (by simp [hb])]
      exact ih (List.nodup_cons.1 d).2 hm

/-! ### Structural lemmas about the register / disconnect machinery -/

theorem evictOne_currentUser (st : HubState) (keep old : String) :
    (evictOne st keep old).currentUser = st.currentUser := by
  unfold evictOne
  split
  · rfl
  · split <;> rfl

theorem evictOne_activeCalls (st : HubState) (keep old : String) :
    (evictOne st keep old).activeCalls = st.activeCalls := by
  unfold evictOne
  split
  · rfl
  · split <;> rfl

theorem foldlEvict_currentUser (olds : List String) (keep : String) (st : HubState) :
    (olds.foldl (fun s old => evictOne s keep old) st).currentUser = st.currentUser := by
  induction olds generalizing st with
  | nil => rfl
  | cons o rest ih => rw [List.foldl_cons, ih, evictOne_currentUser]

theorem foldlEvict_activeCalls (olds : List String) (keep : String) (st : HubState) :
    (olds.foldl (fun s old => evictOne s keep old) st).activeCalls = st.activeCalls := by
  induction olds generalizing st with
  | nil => rfl
  | cons o rest ih => rw [List.foldl_cons, ih, evictOne_activeCalls]

theorem mem_removeSocketFromUser {m : List (String × List String)} {u0 sid u s : String}
    (h : s ∈ (assocGet (removeSocketFromUser m u0 sid) u).getD []) :
    s ∈ (assocGet m u).getD [] := by
  unfold removeSocketFromUser at h
  cases hg : assocGet m u0 with
  | none => rw [hg] at h; exact h
  | some l =>
    rw [hg] at h
    have h' : s ∈ (assocGet (assocSet m u0 (List.filter (fun x => decide (x ≠ sid)) l)) u).getD [] := h
    by_cases hu : u = u0
    · subst hu
      rw [assocGet_set_self] at h'
      rw [hg]
      exact List.mem_of_mem_filter h'
    · rw [assocGet_set_ne _ _ hu] at h'
      exact h'

theorem socketsOf_evictOne_sub {st : HubState} {keep old u s : String}
    (h : s ∈ socketsOf (evictOne st keep old) u) : s ∈ socketsOf st u := by
  unfold evictOne at h
  split at h
  · exact h
  · split at h
    · simp only [socketsOf] at h ⊢
      cases hg : assocGet st.currentUser old with
      | none => rw [hg] at h; exact h
      | some u2 => rw [hg] at h; exact mem_removeSocketFromUser h
    · exact h

theorem foldlEvict_socketsOf_sub {olds : List String} {keep : String} {st : HubState}
    {u s : String}
    (h : s ∈ socketsOf (olds.foldl (fun s' old => evictOne s' keep old) st) u) :
    s ∈ socketsOf st u := by
  induction olds generalizing st with
  | nil => exact h
  | cons o rest ih =>
    rw [List.foldl_cons] at h
    exact socketsOf_evictOne_sub (ih h)

theorem handleRegister_activeCalls (users : List (String × String)) (st : HubState)
    (sid uid : String) :
    (handleRegister users st sid uid).1.activeCalls = st.activeCalls := by
  unfold handleRegister
  exact foldlEvict_activeCalls _ _ _

theorem handleRegister_mem_self (users : List (String × String)) (st : HubState)
    (sid uid : String) :
    sid ∈ socketsOf (handleRegister users st sid uid).1 uid := by
  unfold handleRegister
  dsimp only
  cases hg : assocGet
      (((assocGet { st with currentUser := assocSet st.currentUser sid uid }.activeUsers
          uid).getD []).foldl
        (fun s old => evictOne s sid old)
        { st with currentUser := assocSet st.currentUser sid uid }).activeUsers uid with
  | none => simp [socketsOf, hg, assocGet_set_self]
  | some l =>
    by_cases hc : l.contains sid
    · simp only [hg, hc, if_pos]
      simp only [socketsOf, hg, Option.getD_some]
      exact List.mem_of_elem_eq_true hc
    · simp only [hg, hc]
      simp [socketsOf, assocGet_set_self]

theorem graceFire_noop {st : HubState} {u : String} (h : socketsOf st u ≠ []) :
    graceFire st u = (st, []) := by
  unfold graceFire
  cases hg : assocGet st.activeUsers u with
  | none => simp [socketsOf, hg] at h
  | some l =>
    cases l with
    | nil => simp [socketsOf, hg] at h
    | cons a t => rfl

/-! ### Claim theorems -/

/-- C5: every call-request failing validation leaves the call table unchanged
and reports the named failure to the sender: an empty `callId`, `callerId` or
`calleeId` yields `call-failed`/`invalid-parameters`; with non-empty fields,
`callerId = calleeId` yields `call-failed`/`self-call`; past those checks, a
callee with zero registered connections yields
`call-not-available`/`user-offline`. -/
theorem callRequest_validation (st : HubState) (now : Nat)
    (sender callId calleeId callerId callerName : String) :
    (callId = "" ∨ calleeId = "" ∨ callerId = "" →
      handleCallRequest st now sender callId calleeId callerId callerName =
        (st, [(sender, SEvent.callFailed Reason.invalidParameters)])) ∧
    (callId ≠ "" → calleeId ≠ "" → callerId ≠ "" → callerId = calleeId →
      handleCallRequest st now sender callId calleeId callerId callerName =
        (st, [(sender, SEvent.callFailed Reason.selfCall)])) ∧
    (callId ≠ "" → calleeId ≠ "" → callerId ≠ "" → callerId ≠ calleeId →
      socketsOf st calleeId = [] →
      handleCallRequest st now sender callId calleeId callerId callerName =
        (st, [(sender, SEvent.callNotAvailable calleeId Reason.userOffline)])) := by
  refine ⟨fun h => ?_, fun h1 h2 h3 h4 => ?_, fun h1 h2 h3 h4 h5 => ?_⟩
  · unfold handleCallRequest
    rw [if_pos h]
  · unfold handleCallRequest
    rw [if_neg (by simp [h1, h2, h3]), if_pos h4]
  · unfold handleCallRequest
    rw [if_neg (by simp [h1, h2, h3]), if_neg h4]
    simp [h5]

/-- C5 witness: the three validation failures at concrete inputs. -/
theorem callRequest_validation_witness :
    (handleCallRequest (run sampleUsers HubState.init traceCollision) 7 "sA" "" "B" "A" "alice"
      = (run sampleUsers HubState.init traceCollision,
         [("sA", SEvent.callFailed Reason.invalidParameters)])) ∧
    (handleCallRequest (run sampleUsers HubState.init traceCollision) 7 "sA" "c7" "A" "A" "alice"
      = (run sampleUsers HubState.init traceCollision,
         [("sA", SEvent.callFailed Reason.selfCall)])) ∧
    (handleCallRequest (run sampleUsers HubState.init traceCollision) 7 "sA" "c7" "D" "A" "alice"
      = (run sampleUsers HubState.init traceCollision,
         [("sA", SEvent.callNotAvailable "D" Reason.userOffline)])) :=
  ⟨(callRequest_validation _ 7 "sA" "" "B" "A" "alice").1 (Or.inl rfl),
   (callRequest_validation _ 7 "sA" "c7" "A" "A" "alice").2.1
     (by decide) (by decide) (by decide) rfl,
   (callRequest_validation _ 7 "sA" "c7" "D" "A" "alice").2.2
     (by decide) (by decide) (by decide) (by decide) (by decide)⟩

/-- C6: the accept handler fails with `call-not-found` when the record is
missing and with `invalid-state` when it is not pending, in both cases leaving
the table unchanged; on a pending record it activates the record and notifies
every connected registered socket of the caller when the caller has at least
one registered connection, and otherwise reports `caller-unavailable` to the
accepter and destroys the record. -/
theorem callAccepted_behavior (st : HubState) (sender callId calleeId callerId : String) :
    (assocGet st.activeCalls callId = none →
      handleCallAccepted st sender callId calleeId callerId =
        (st, [(sender, SEvent.callFailed Reason.callNotFound)])) ∧
    (∀ call, assocGet st.activeCalls callId = some call →
      call.status = CallStatus.active →
      handleCallAccepted st sender callId calleeId callerId =
        (st, [(sender, SEvent.callFailed Reason.invalidState)])) ∧
    (∀ call, assocGet st.activeCalls callId = some call →
      call.status = CallStatus.pending → socketsOf st callerId ≠ [] →
      handleCallAccepted st sender callId calleeId callerId =
        ({ st with activeCalls :=
            assocSet st.activeCalls callId { call with status := CallStatus.active } },
         emitEach st (socketsOf st callerId) (SEvent.callAccepted callId calleeId)) ∧
      assocGet (handleCallAccepted st sender callId calleeId callerId).1.activeCalls callId
        = some { call with status := CallStatus.active } ∧
      (∀ t, t ∈ socketsOf st callerId → st.live.contains t = true →
        (t, SEvent.callAccepted callId calleeId)
          ∈ (handleCallAccepted st sender callId calleeId callerId).2)) ∧
    (∀ call, assocGet st.activeCalls callId = some call →
      call.status = CallStatus.pending → socketsOf st callerId = [] →
      handleCallAccepted st sender callId calleeId callerId =
        ({ st with activeCalls := assocDelete st.activeCalls callId },
         [(sender, SEvent.callFailed Reason.callerUnavailable)]) ∧
      assocGet (handleCallAccepted st sender callId calleeId callerId).1.activeCalls callId
        = none) := by
  refine ⟨fun h => ?_, fun call hget hst => ?_, fun call hget hst hs => ?_,
    fun call hget hst hs => ?_⟩
  · unfold handleCallAccepted
    rw [h]
  · unfold handleCallAccepted
    rw [hget]
    simp [hst]
  · have heq : handleCallAccepted st sender callId calleeId callerId =
        ({ st with activeCalls :=
            assocSet st.activeCalls callId { call with status := CallStatus.active } },
         emitEach st (socketsOf st callerId) (SEvent.callAccepted callId calleeId)) := by
      unfold handleCallAccepted
      rw [hget]
      simp [hst, List.isEmpty_iff, hs]
    refine ⟨heq, ?_, ?_⟩
    · rw [heq]
      exact assocGet_set_self _ _ _
    · intro t ht hl
      rw [heq]
      exact mem_emitEach.2 ⟨ht, hl, rfl⟩
  · have heq : handleCallAccepted st sender callId calleeId callerId =
        ({ st with activeCalls := assocDelete st.activeCalls callId },
         [(sender, SEvent.callFailed Reason.callerUnavailable)]) := by
      unfold handleCallAccepted
      rw [hget]
      simp [hst, List.isEmpty_iff, hs]
    refine ⟨heq, ?_⟩
    rw [heq]
    simp [assocGet_delete]

/-- C6 witness: the four accept outcomes at concrete inputs. -/
theorem callAccepted_behavior_witness :
    (handleCallAccepted (run sampleUsers HubState.init traceCollision) "sB" "nope" "B" "A"
      = (run sampleUsers HubState.init traceCollision,
         [("sB", SEvent.callFailed Reason.callNotFound)])) ∧
    (handleCallAccepted (run sampleUsers HubState.init traceActiveCall) "s2" "c1" "B" "A"
      = (run sampleUsers HubState.init traceActiveCall,
         [("s2", SEvent.callFailed Reason.invalidState)])) ∧
    (assocGet (handleCallAccepted (run sampleUsers HubState.init traceCollision)
        "sB" "X" "B" "A").1.activeCalls "X"
      = some ⟨["A", "B"], CallStatus.active, 0⟩) ∧
    (("sA", SEvent.callAccepted "X" "B")
      ∈ (handleCallAccepted (run sampleUsers HubState.init traceCollision) "sB" "X" "B" "A").2) ∧
    (handleCallAccepted ⟨["s2"], [("s2", "B")], [("B", ["s2"])],
        [("c9", ⟨["A", "B"], CallStatus.pending, 0⟩)]⟩ "s2" "c9" "B" "A"
      = (⟨["s2"], [("s2", "B")], [("B", ["s2"])], []⟩,
         [("s2", SEvent.callFailed Reason.callerUnavailable)])) :=
  ⟨(callAccepted_behavior _ "sB" "nope" "B" "A").1 rfl,
   (callAccepted_behavior _ "s2" "c1" "B" "A").2.1 _ rfl rfl,
   ((callAccepted_behavior (run sampleUsers HubState.init traceCollision) "sB" "X" "B" "A").2.2.1
     ⟨["A", "B"], CallStatus.pending, 0⟩ (by decide) rfl (by decide)).2.1,
   ((callAccepted_behavior (run sampleUsers HubState.init traceCollision) "sB" "X" "B" "A").2.2.1
     ⟨["A", "B"], CallStatus.pending, 0⟩ (by decide) rfl (by decide)).2.2
     "sA" (by decide) (by decide),
   by
     have h := ((callAccepted_behavior
       (⟨["s2"], [("s2", "B")], [("B", ["s2"])], [("c9", ⟨["A", "B"], CallStatus.pending, 0⟩)]⟩ :
         HubState) "s2" "c9" "B" "A").2.2.2 _ rfl rfl (by decide)).1
     exact h⟩

/-- C7: the reject handler, when a record exists for the call id, notifies
every connected registered socket of the caller and deletes the record
whatever its prior status; when no record exists it is a silent no-op. -/
theorem callRejected_behavior (st : HubState) (sender callId calleeId callerId : String) :
    (assocGet st.activeCalls callId = none →
      handleCallRejected st sender callId calleeId callerId = (st, [])) ∧
    (∀ call, assocGet st.activeCalls callId = some call →
      handleCallRejected st sender callId calleeId callerId =
        ({ st with activeCalls := assocDelete st.activeCalls callId },
         emitEach st (socketsOf st callerId) (SEvent.callRejected callId calleeId)) ∧
      assocGet (handleCallRejected st sender callId calleeId callerId).1.activeCalls callId
        = none ∧
      (∀ t, t ∈ socketsOf st callerId → st.live.contains t = true →
        (t, SEvent.callRejected callId calleeId)
          ∈ (handleCallRejected st sender callId calleeId callerId).2)) := by
  refine ⟨fun h => ?_, fun call hget => ?_⟩
  · unfold handleCallRejected
    rw [h]
  · have heq : handleCallRejected st sender callId calleeId callerId =
        ({ st with activeCalls := assocDelete st.activeCalls callId },
         emitEach st (socketsOf st callerId) (SEvent.callRejected callId calleeId)) := by
      unfold handleCallRejected
      rw [hget]
    refine ⟨heq, ?_, ?_⟩
    · rw [heq]
      simp [assocGet_delete]
    · intro t ht hl
      rw [heq]
      exact mem_emitEach.2 ⟨ht, hl, rfl⟩

/-- C7 witness: rejecting an existing call (even an already-active one)
notifies the caller and deletes the record; rejecting a missing call id is a
silent no-op. -/
theorem callRejected_behavior_witness :
    (handleCallRejected (run sampleUsers HubState.init traceActiveCall) "s2" "c1" "B" "A"
      = (⟨["s1", "s2"], [("s1", "A"), ("s2", "B")], [("A", ["s1"]), ("B", ["s2"])], []⟩,
         [("s1", SEvent.callRejected "c1" "B")])) ∧
    (handleCallRejected (run sampleUsers HubState.init traceActiveCall) "s2" "zz" "B" "A"
      = (run sampleUsers HubState.init traceActiveCall, [])) :=
  ⟨((callRejected_behavior (run sampleUsers HubState.init traceActiveCall) "s2" "c1" "B" "A").2
     ⟨["A", "B"], CallStatus.active, 0⟩ (by decide)).1,
   (callRejected_behavior _ "s2" "zz" "B" "A").1 rfl⟩

/-- C3: one reaper tick removes exactly the records that are pending and
older than 30 seconds; a removed record's caller (`participants[0]`) gets a
`call-failed`/`timeout` on each connected registered socket; active records
and young pending records survive unchanged; an id with no record still has
none afterwards (reaping a vanished record is a no-op). -/
theorem reaperTick_behavior (st : HubState) (now : Nat)
    (hkeys : (st.activeCalls.map Prod.fst).Nodup) :
    (handleReaperTick st now).1.activeCalls
        = st.activeCalls.filter (fun p => !(isStale now p.2)) ∧
    (∀ cid c, assocGet st.activeCalls cid = some c →
      (c.status = CallStatus.pending → 30000 < now - c.createdAt →
        assocGet (handleReaperTick st now).1.activeCalls cid = none ∧
        (∀ caller rest, c.participants = caller :: rest →
          ∀ t, t ∈ socketsOf st caller → st.live.contains t = true →
            (t, SEvent.callFailed Reason.timeout) ∈ (handleReaperTick st now).2)) ∧
      (c.status = CallStatus.active →
        assocGet (handleReaperTick st now).1.activeCalls cid = some c) ∧
      (now - c.createdAt ≤ 30000 →
        assocGet (handleReaperTick st now).1.activeCalls cid = some c)) ∧
    (∀ cid, assocGet st.activeCalls cid = none →
      assocGet (handleReaperTick st now).1.activeCalls cid = none) := by
  refine ⟨rfl, fun cid c hget => ⟨fun hp hage => ⟨?_, ?_⟩, fun ha => ?_, fun hy => ?_⟩,
    fun cid hn => ?_⟩
  · show assocGet (st.activeCalls.filter (fun p => !(isStale now p.2))) cid = none
    rw [assocGet_filter_of_nodup _ hkeys hget]
    simp [isStale, hp, hage]
  · intro caller rest hparts t ht hl
    show (t, SEvent.callFailed Reason.timeout)
        ∈ (st.activeCalls.filter (fun p => isStale now p.2)).flatMap _
    refine List.mem_flatMap.2 ⟨(cid, c), List.mem_filter.2 ⟨assocGet_mem hget, ?_⟩, ?_⟩
    · simp [isStale, hp, hage]
    · show (t, SEvent.callFailed Reason.timeout) ∈
        (match c.participants with
         | [] => ([] : List (String × SEvent))
         | callerId :: _ => emitEach st (socketsOf st callerId) (SEvent.callFailed Reason.timeout))
      rw [hparts]
      exact mem_emitEach.2 ⟨ht, hl, rfl⟩
  · show assocGet (st.activeCalls.filter (fun p => !(isStale now p.2))) cid = some c
    rw [assocGet_filter_of_nodup _ hkeys hget]
    simp [isStale, ha]
  · show assocGet (st.activeCalls.filter (fun p => !(isStale now p.2))) cid = some c
    rw [assocGet_filter_of_nodup _ hkeys hget]
    have : ¬ (30000 < now - c.createdAt) := by omega
    simp [isStale, this]
  · show assocGet (st.activeCalls.filter (fun p => !(isStale now p.2))) cid = none
    exact assocGet_filter_none _ hn

/-- C3 witness: a pending record aged past 30s is reaped with a timeout
notification to the caller's socket; an active record of the same age is not. -/
theorem reaperTick_behavior_witness :
    (assocGet (handleReaperTick (run sampleUsers HubState.init traceCollision)
        50000).1.activeCalls "X" = none) ∧
    (("sA", SEvent.callFailed Reason.timeout)
      ∈ (handleReaperTick (run sampleUsers HubState.init traceCollision) 50000).2) ∧
    (assocGet (handleReaperTick (run sampleUsers HubState.init traceActiveCall)
        50000).1.activeCalls "c1" = some ⟨["A", "B"], CallStatus.active, 0⟩) ∧
    (assocGet (handleReaperTick (run sampleUsers HubState.init traceCollision)
        20000).1.activeCalls "X" = some ⟨["A", "B"], CallStatus.pending, 0⟩) :=
  ⟨((reaperTick_behavior (run sampleUsers HubState.init traceCollision) 50000
      (by decide)).2.1 "X" ⟨["A", "B"], CallStatus.pending, 0⟩ (by decide)).1
      rfl (by decide) |>.1,
   ((reaperTick_behavior (run sampleUsers HubState.init traceCollision) 50000
      (by decide)).2.1 "X" ⟨["A", "B"], CallStatus.pending, 0⟩ (by decide)).1
      rfl (by decide) |>.2 "A" ["B"] rfl "sA" (by decide) (by decide),
   ((reaperTick_behavior (run sampleUsers HubState.init traceActiveCall) 50000
      (by decide)).2.1 "c1" ⟨["A", "B"], CallStatus.active, 0⟩ (by decide)).2.1 rfl,
   ((reaperTick_behavior (run sampleUsers HubState.init traceCollision) 20000
      (by decide)).2.1 "X" ⟨["A", "B"], CallStatus.pending, 0⟩ (by decide)).2.2 (by decide)⟩

/-- C1 (amended): a call-request that passes the earlier checks (non-empty
fields, distinct parties, callee registered) and whose callee participates in
some `active` record fails with `call-not-available`/`user-busy` and creates
no record. -/
theorem callRequest_busy (st : HubState) (now : Nat)
    (sender callId calleeId callerId callerName : String)
    (h1 : callId ≠ "") (h2 : calleeId ≠ "") (h3 : callerId ≠ "")
    (h4 : callerId ≠ calleeId) (h5 : socketsOf st calleeId ≠ [])
    (h6 : st.activeCalls.any
        (fun p => p.2.participants.contains calleeId && p.2.status == CallStatus.active)
      = true) :
    handleCallRequest st now sender callId calleeId callerId callerName =
      (st, [(sender, SEvent.callNotAvailable calleeId Reason.userBusy)]) := by
  unfold handleCallRequest
  rw [if_neg (by simp [h1, h2, h3]), if_neg h4]
  have h5' : ¬ ((socketsOf st calleeId).isEmpty = true) := by
    simpa [List.isEmpty_iff] using h5
  rw [if_neg h5', if_pos h6]

/-- C1 witness: a request to a callee already in an active call is refused
with `user-busy` and the table is untouched. -/
theorem callRequest_busy_witness :
    handleCallRequest (run sampleUsers HubState.init traceActiveCall) 9 "s9" "c2" "B" "C" "carol"
      = (run sampleUsers HubState.init traceActiveCall,
         [("s9", SEvent.callNotAvailable "B" Reason.userBusy)]) :=
  callRequest_busy (run sampleUsers HubState.init traceActiveCall) 9 "s9" "c2" "B" "C" "carol"
    (by decide) (by decide) (by decide) (by decide) (by decide) (by decide)

/-- C1 (counterexample): the global uniqueness invariant fails — after two
pending requests to the same callee are both accepted, two distinct `active`
records share participant "B". -/
theorem activeUnique_violated :
    ¬ ActiveUniqueInv (run sampleUsers HubState.init traceDoubleActive) := by
  intro h
  have h12 := h "call1" "call2" ⟨["A", "B"], CallStatus.active, 0⟩
    ⟨["C", "B"], CallStatus.active, 1⟩ "B" (by decide) (by decide) rfl rfl
    (by decide) (by decide)
  exact absurd h12 (by decide)

/-- C4 (amended): a call-request that passes validation installs its record
with JS `Map.set` semantics — replacing any existing record under the same
`callId` — and reports success, never a collision error. -/
theorem callRequest_success_overwrites (st : HubState) (now : Nat)
    (sender callId calleeId callerId callerName : String)
    (h1 : callId ≠ "") (h2 : calleeId ≠ "") (h3 : callerId ≠ "")
    (h4 : callerId ≠ calleeId) (h5 : socketsOf st calleeId ≠ [])
    (h6 : st.activeCalls.any
        (fun p => p.2.participants.contains calleeId && p.2.status == CallStatus.active)
      = false) :
    handleCallRequest st now sender callId calleeId callerId callerName =
      ({ st with activeCalls :=
          assocSet st.activeCalls callId ⟨[callerId, calleeId], CallStatus.pending, now⟩ },
       emitEach st (socketsOf st calleeId) (SEvent.incomingCall callId callerId callerName)
         ++ [(sender, SEvent.callRinging callId)]) ∧
    assocGet (handleCallRequest st now sender callId calleeId callerId callerName).1.activeCalls
        callId = some ⟨[callerId, calleeId], CallStatus.pending, now⟩ := by
  have heq : handleCallRequest st now sender callId calleeId callerId callerName =
      ({ st with activeCalls :=
          assocSet st.activeCalls callId ⟨[callerId, calleeId], CallStatus.pending, now⟩ },
       emitEach st (socketsOf st calleeId) (SEvent.incomingCall callId callerId callerName)
         ++ [(sender, SEvent.callRinging callId)]) := by
    unfold handleCallRequest
    rw [if_neg (by simp [h1, h2, h3]), if_neg h4]
    have h5' : ¬ ((socketsOf st calleeId).isEmpty = true) := by
      simpa [List.isEmpty_iff] using h5
    rw [if_neg h5']
    have h6' : ¬ (st.activeCalls.any
        (fun p => p.2.participants.contains calleeId && p.2.status == CallStatus.active)
          = true) := by
      rw [h6]
      simp
    rw [if_neg h6']
  exact ⟨heq, by rw [heq]; exact assocGet_set_self _ _ _⟩

/-- C4 (counterexample): a request whose `callId` collides with the existing
pending record "X" is not rejected — it silently replaces the record and
emits the normal success events. -/
theorem callIdCollision_overwrites :
    assocGet (run sampleUsers HubState.init traceCollision).activeCalls "X"
        = some ⟨["A", "B"], CallStatus.pending, 0⟩ ∧
    (handleCallRequest (run sampleUsers HubState.init traceCollision)
        5 "sC" "X" "B" "C" "carol").1.activeCalls
        = [("X", ⟨["C", "B"], CallStatus.pending, 5⟩)] ∧
    (handleCallRequest (run sampleUsers HubState.init traceCollision)
        5 "sC" "X" "B" "C" "carol").2
        = [("sB", SEvent.incomingCall "X" "C" "carol"), ("sC", SEvent.callRinging "X")] :=
  ⟨rfl, rfl, rfl⟩

/-- C4 witness: the overwrite theorem applied where a record already exists
under the colliding `callId`. -/
theorem callRequest_success_overwrites_witness :
    assocGet (run sampleUsers HubState.init traceCollision).activeCalls "X"
        = some ⟨["A", "B"], CallStatus.pending, 0⟩ ∧
    assocGet (handleCallRequest (run sampleUsers HubState.init traceCollision)
        5 "sC" "X" "B" "C" "carol").1.activeCalls "X"
        = some ⟨["C", "B"], CallStatus.pending, 5⟩ :=
  ⟨rfl,
   (callRequest_success_overwrites (run sampleUsers HubState.init traceCollision)
     5 "sC" "X" "B" "C" "carol" (by decide) (by decide) (by decide) (by decide)
     (by decide) (by decide)).2⟩

/-- Behaviour of the register handler when the identity lookup resolves
(user found or null): the socket is recorded, the user is online, and the
emission list is the `user-online` broadcast with the `'Unknown'` fallback.
This characterizes `handleRegister`, i.e. the resolving branch of
`handleRegisterF`. -/
theorem handleRegister_resolved_behavior (users : List (String × String)) (st : HubState)
    (sid uid : String) :
    isOnline (handleRegister users st sid uid).1 uid = true ∧
    sid ∈ socketsOf (handleRegister users st sid uid).1 uid ∧
    (handleRegister users st sid uid).2
      = ((handleRegister users st sid uid).1.live.filter (fun t => t ≠ sid)).map
          (fun t => (t, SEvent.userOnline uid ((assocGet users uid).getD "Unknown"))) ∧
    (assocGet users uid = none →
      ∀ p ∈ (handleRegister users st sid uid).2, p.2 = SEvent.userOnline uid "Unknown") := by
  have hmem := handleRegister_mem_self users st sid uid
  refine ⟨?_, hmem, rfl, ?_⟩
  · unfold isOnline
    cases hs : socketsOf (handleRegister users st sid uid).1 uid with
    | nil => rw [hs] at hmem; cases hmem
    | cons a l => simp
  · intro hn p hp
    unfold handleRegister at hp
    dsimp only at hp
    obtain ⟨x, hx, rfl⟩ := List.mem_map.1 hp
    simp [hn]

/-- C10 (counterexample): registering the empty-string user id does add the
socket (the user becomes online), but "" does not cast to an ObjectId, so
`User.findById("")` rejects and the handler aborts before the broadcast:
although another party ("s0") is connected, no `user-online` event is emitted
at all — refuting the claim that the broadcast still happens. -/
theorem register_empty_id_no_broadcast :
    castsToObjectId "" = false ∧
    "s0" ∈ (handleRegisterF [] ⟨["s0", "s1"], [("s0", "Z")], [("Z", ["s0"])], []⟩
        "s1" "").1.live ∧
    isOnline (handleRegisterF [] ⟨["s0", "s1"], [("s0", "Z")], [("Z", ["s0"])], []⟩
        "s1" "").1 "" = true ∧
    (handleRegisterF [] ⟨["s0", "s1"], [("s0", "Z")], [("Z", ["s0"])], []⟩ "s1" "").2
      = [] :=
  ⟨rfl, by decide, rfl, rfl⟩

/-- C10 (amended): register validates nothing itself and always records the
socket — for every string user id (empty included) the handle is added and
the user becomes online.  The `user-online` broadcast is emitted exactly when
the id casts to an ObjectId (so the lookup resolves): then every other
connected socket receives it, with the display name falling back to "Unknown"
when the identity store has no such user; when the cast fails, the rejected
lookup aborts the handler and nothing is emitted. -/
theorem register_no_validation_fallible (users : List (String × String)) (st : HubState)
    (sid uid : String) :
    isOnline (handleRegisterF users st sid uid).1 uid = true ∧
    sid ∈ socketsOf (handleRegisterF users st sid uid).1 uid ∧
    (castsToObjectId uid = true →
      (handleRegisterF users st sid uid).2
        = ((handleRegisterF users st sid uid).1.live.filter (fun t => t ≠ sid)).map
            (fun t => (t, SEvent.userOnline uid ((assocGet users uid).getD "Unknown")))) ∧
    (castsToObjectId uid = false →
      (handleRegisterF users st sid uid).2 = []) ∧
    (assocGet users uid = none →
      ∀ p ∈ (handleRegisterF users st sid uid).2, p.2 = SEvent.userOnline uid "Unknown") := by
  have h := handleRegister_resolved_behavior users st sid uid
  have h1 : (handleRegisterF users st sid uid).1 = (handleRegister users st sid uid).1 := by
    unfold handleRegisterF
    split <;> rfl
  refine ⟨?_, ?_, fun hc => ?_, fun hc => ?_, fun hn p hp => ?_⟩
  · rw [h1]
    exact h.1
  · rw [h1]
    exact h.2.1
  · unfold handleRegisterF
    rw [if_pos hc]
    exact h.2.2.1
  · unfold handleRegisterF
    rw [if_neg (by simp [hc])]
  · by_cases hc : castsToObjectId uid
    · unfold handleRegisterF at hp
      rw [if_pos hc] at hp
      exact h.2.2.2 hn p hp
    · unfold handleRegisterF at hp
      rw [if_neg hc] at hp
      cases hp

/-- C10 witness: a well-formed 24-hex-char user id absent from the store is
announced as "Unknown"; the empty string is recorded (online) but triggers no
broadcast. -/
theorem register_no_validation_fallible_witness :
    (castsToObjectId "0123456789abcdef01234567" = true ∧
      (handleRegisterF [] ⟨["s0", "s1"], [("s0", "Z")], [("Z", ["s0"])], []⟩
          "s1" "0123456789abcdef01234567").2
        = [("s0", SEvent.userOnline "0123456789abcdef01234567" "Unknown")]) ∧
    (castsToObjectId "" = false ∧
      (handleRegisterF [] ⟨["s0", "s1"], [("s0", "Z")], [("Z", ["s0"])], []⟩ "s1" "").2
        = []) ∧
    isOnline (handleRegisterF [] ⟨["s0", "s1"], [("s0", "Z")], [("Z", ["s0"])], []⟩
        "s1" "").1 "" = true := by
  refine ⟨⟨rfl, ?_⟩, ⟨rfl, ?_⟩, ?_⟩
  · rw [(register_no_validation_fallible []
      ⟨["s0", "s1"], [("s0", "Z")], [("Z", ["s0"])], []⟩
      "s1" "0123456789abcdef01234567").2.2.1 rfl]
    rfl
  · exact (register_no_validation_fallible []
      ⟨["s0", "s1"], [("s0", "Z")], [("Z", ["s0"])], []⟩ "s1" "").2.2.2.1 rfl
  · exact (register_no_validation_fallible []
      ⟨["s0", "s1"], [("s0", "Z")], [("Z", ["s0"])], []⟩ "s1" "").1

/-! ### Preservation of the registry invariant (claim C9) -/

theorem regInv_of_registry_eq {st st' : HubState}
    (hau : st'.activeUsers = st.activeUsers) (hcu : st'.currentUser = st.currentUser)
    (h : RegInv st) : RegInv st' := by
  intro u s hmem
  rw [hcu]
  refine h u s ?_
  simpa [socketsOf, hau] using hmem

theorem handleConnect_registry (st : HubState) (sid : String) :
    (handleConnect st sid).activeUsers = st.activeUsers ∧
    (handleConnect st sid).currentUser = st.currentUser := by
  unfold handleConnect
  split <;> exact ⟨rfl, rfl⟩

theorem regInv_evictOne {st : HubState} (keep old : String) (h : RegInv st) :
    RegInv (evictOne st keep old) := by
  intro u s hmem
  rw [evictOne_currentUser]
  exact h u s (socketsOf_evictOne_sub hmem)

theorem regInv_foldlEvict {olds : List String} {keep : String} {st : HubState}
    (h : RegInv st) : RegInv (olds.foldl (fun s' old => evictOne s' keep old) st) := by
  induction olds generalizing st with
  | nil => exact h
  | cons o rest ih =>
    rw [List.foldl_cons]
    exact ih (regInv_evictOne _ _ h)

theorem regInv_addSelf {st2 : HubState} {sid uid : String}
    (h : RegInv st2) (hcu : assocGet st2.currentUser sid = some uid) :
    RegInv { st2 with activeUsers :=
      (match assocGet st2.activeUsers uid with
       | none => assocSet st2.activeUsers uid [sid]
       | some l =>
         if l.contains sid then st2.activeUsers
         else assocSet st2.activeUsers uid (l ++ [sid])) } := by
  intro u s hmem
  simp only [socketsOf] at hmem
  cases hg : assocGet st2.activeUsers uid with
  | none =>
    simp only [hg] at hmem
    by_cases hu : u = uid
    · subst hu
      rw [assocGet_set_self] at hmem
      simp only [Option.getD_some, List.mem_singleton] at hmem
      subst hmem
      exact hcu
    · rw [assocGet_set_ne _ _ hu] at hmem
      exact h u s hmem
  | some l =>
    simp only [hg] at hmem
    by_cases hc : l.contains sid
    · rw [if_pos hc] at hmem
      exact h u s hmem
    · rw [if_neg hc] at hmem
      by_cases hu : u = uid
      · subst hu
        rw [assocGet_set_self] at hmem
        simp only [Option.getD_some, List.mem_append, List.mem_singleton] at hmem
        rcases hmem with hmem | rfl
        · refine h _ s ?_
          simp [socketsOf, hg, hmem]
        · exact hcu
      · rw [assocGet_set_ne _ _ hu] at hmem
        exact h u s hmem

theorem regInv_register (users : List (String × String)) (st : HubState) (sid uid : String)
    (h : RegInv st)
    (hok : assocGet st.currentUser sid = none ∨ assocGet st.currentUser sid = some uid) :
    RegInv (handleRegister users st sid uid).1 := by
  have h1 : RegInv { st with currentUser := assocSet st.currentUser sid uid } := by
    intro u s hmem
    simp only [socketsOf] at hmem
    by_cases hs : s = sid
    · subst hs
      have hcu := h u s hmem
      rcases hok with hnone | hsome
      · rw [hcu] at hnone
        cases hnone
      · rw [hcu] at hsome
        cases Option.some.inj hsome
        exact assocGet_set_self _ _ _
    · rw [assocGet_set_ne _ _ hs]
      exact h u s hmem
  have h2 : RegInv ((((assocGet st.activeUsers uid).getD []).foldl
      (fun s' old => evictOne s' sid old)
      { st with currentUser := assocSet st.currentUser sid uid })) :=
    regInv_foldlEvict h1
  have hcu2 : assocGet (((assocGet st.activeUsers uid).getD []).foldl
      (fun s' old => evictOne s' sid old)
      { st with currentUser := assocSet st.currentUser sid uid }).currentUser sid
        = some uid := by
    rw [foldlEvict_currentUser]
    exact assocGet_set_self _ _ _
  exact regInv_addSelf h2 hcu2

theorem regInv_handleDisconnect (st : HubState) (sid : String) (h : RegInv st) :
    RegInv (handleDisconnect st sid) := by
  intro u s hmem
  simp only [socketsOf, handleDisconnect] at hmem ⊢
  cases hg : assocGet st.currentUser sid with
  | none =>
    simp only [hg] at hmem ⊢
    exact h u s hmem
  | some u0 =>
    simp only [hg] at hmem ⊢
    exact h u s (mem_removeSocketFromUser hmem)

theorem regInv_graceFire (st : HubState) (u0 : String) (h : RegInv st) :
    RegInv (graceFire st u0).1 := by
  intro u s hmem
  simp only [socketsOf, graceFire] at hmem ⊢
  cases hg : assocGet st.activeUsers u0 with
  | none =>
    simp only [hg] at hmem ⊢
    rw [assocGet_delete] at hmem
    by_cases hu : u = u0
    · simp [hu] at hmem
    · rw [if_neg hu] at hmem
      exact h u s hmem
  | some l =>
    cases l with
    | nil =>
      simp only [hg] at hmem ⊢
      rw [assocGet_delete] at hmem
      by_cases hu : u = u0
      · simp [hu] at hmem
      · rw [if_neg hu] at hmem
        exact h u s hmem
    | cons a t =>
      simp only [hg] at hmem ⊢
      exact h u s hmem

theorem handleCallRequest_registry (st : HubState) (now : Nat)
    (sender callId calleeId callerId callerName : String) :
    (handleCallRequest st now sender callId calleeId callerId callerName).1.activeUsers
        = st.activeUsers ∧
    (handleCallRequest st now sender callId calleeId callerId callerName).1.currentUser
        = st.currentUser := by
  unfold handleCallRequest
  dsimp only
  split
  · exact ⟨rfl, rfl⟩
  · split
    · exact ⟨rfl, rfl⟩
    · split
      · exact ⟨rfl, rfl⟩
      · split
        · exact ⟨rfl, rfl⟩
        · exact ⟨rfl, rfl⟩

theorem handleCallAccepted_registry (st : HubState)
    (sender callId calleeId callerId : String) :
    (handleCallAccepted st sender callId calleeId callerId).1.activeUsers = st.activeUsers ∧
    (handleCallAccepted st sender callId calleeId callerId).1.currentUser = st.currentUser := by
  unfold handleCallAccepted
  dsimp only
  split
  · exact ⟨rfl, rfl⟩
  · split
    · exact ⟨rfl, rfl⟩
    · split
      · exact ⟨rfl, rfl⟩
      · exact ⟨rfl, rfl⟩

theorem handleCallRejected_registry (st : HubState)
    (sender callId calleeId callerId : String) :
    (handleCallRejected st sender callId calleeId callerId).1.activeUsers = st.activeUsers ∧
    (handleCallRejected st sender callId calleeId callerId).1.currentUser = st.currentUser := by
  unfold handleCallRejected
  split <;> exact ⟨rfl, rfl⟩

theorem regInv_step (users : List (String × String)) (st : HubState) (e : HubEvent)
    (h : RegInv st)
    (hok : (match e with
            | HubEvent.register sid uid =>
              st.live.contains sid && ((assocGet st.currentUser sid).getD uid == uid)
            | _ => true) = true) :
    RegInv (step users st e).1 := by
  cases e with
  | connect sid =>
    exact regInv_of_registry_eq (handleConnect_registry st sid).1
      (handleConnect_registry st sid).2 h
  | register sid uid =>
    simp only [Bool.and_eq_true, beq_iff_eq] at hok
    apply regInv_register users st sid uid h
    cases hcu : assocGet st.currentUser sid with
    | none => exact Or.inl rfl
    | some x =>
      right
      have hx := hok.2
      rw [hcu] at hx
      simp only [Option.getD_some] at hx
      rw [hx]
  | callRequest now sid callId calleeId callerId callerName =>
    exact regInv_of_registry_eq
      (handleCallRequest_registry st now sid callId calleeId callerId callerName).1
      (handleCallRequest_registry st now sid callId calleeId callerId callerName).2 h
  | accept sid callId calleeId callerId =>
    exact regInv_of_registry_eq
      (handleCallAccepted_registry st sid callId calleeId callerId).1
      (handleCallAccepted_registry st sid callId calleeId callerId).2 h
  | reject sid callId calleeId callerId =>
    exact regInv_of_registry_eq
      (handleCallRejected_registry st sid callId calleeId callerId).1
      (handleCallRejected_registry st sid callId calleeId callerId).2 h
  | disconnect sid => exact regInv_handleDisconnect st sid h
  | grace uid => exact regInv_graceFire st uid h
  | reaperTick now => exact regInv_of_registry_eq rfl rfl h

theorem regInv_run (users : List (String × String)) (es : List HubEvent) :
    ∀ st, okTrace users st es = true → RegInv st → RegInv (run users st es) := by
  induction es with
  | nil => exact fun st _ h => h
  | cons e rest ih =>
    intro st hok h
    simp only [okTrace, Bool.and_eq_true] at hok
    exact ih _ hok.2 (regInv_step users st e h hok.1)

/-- C9 (amended): along any well-formed trace — every `register` issued by a
connected socket that never registers under two different user ids — each
socket id belongs to the socket set of at most one user. -/
theorem handleUnique_of_okTrace (users : List (String × String)) (es : List HubEvent)
    (hok : okTrace users HubState.init es = true) :
    HandleUniqueInv (run users HubState.init es) := by
  have hinv : RegInv (run users HubState.init es) := by
    refine regInv_run users es HubState.init hok ?_
    intro u s hmem
    simp [socketsOf, HubState.init, assocGet] at hmem
  intro u1 u2 s h1 h2
  have e1 := hinv u1 s h1
  have e2 := hinv u2 s h2
  rw [e1] at e2
  exact Option.some.inj e2

/-- C9 witness: the amended invariant applied to a concrete well-formed trace
with two users on two sockets. -/
theorem handleUnique_of_okTrace_witness :
    okTrace sampleUsers HubState.init
      [ HubEvent.connect "s1", HubEvent.register "s1" "A",
        HubEvent.connect "s2", HubEvent.register "s2" "B" ] = true ∧
    ("A" : String) = "A" :=
  ⟨by decide,
   handleUnique_of_okTrace sampleUsers
     [ HubEvent.connect "s1", HubEvent.register "s1" "A",
       HubEvent.connect "s2", HubEvent.register "s2" "B" ]
     (by decide) "A" "A" "s1" (by decide) (by decide)⟩

/-- C9 (counterexample): a socket that registers as "A" and then re-registers
as "B" remains in "A"'s socket set while also being added to "B"'s, so one
socket id appears under two users. -/
theorem handleUnique_violated :
    ¬ HandleUniqueInv (run sampleUsers HubState.init traceDualRegister) := by
  intro h
  exact absurd (h "A" "B" "s1" (by decide) (by decide)) (by decide)

/-! ### Disconnect and grace-period behaviour (claim C2) -/

theorem handleConnect_activeCalls (st : HubState) (sid : String) :
    (handleConnect st sid).activeCalls = st.activeCalls := by
  unfold handleConnect
  split <;> rfl

theorem handleDisconnect_activeCalls (st : HubState) (sid : String) :
    (handleDisconnect st sid).activeCalls = st.activeCalls := by
  unfold handleDisconnect
  cases hg : assocGet st.currentUser sid <;> simp only [hg]

theorem handleDisconnect_state (st : HubState) {s u : String}
    (hcu : assocGet st.currentUser s = some u) :
    (handleDisconnect st s).live = st.live.filter (fun x => x ≠ s) ∧
    (handleDisconnect st s).activeUsers = removeSocketFromUser st.activeUsers u s ∧
    (handleDisconnect st s).currentUser = st.currentUser := by
  refine ⟨?_, ?_, ?_⟩ <;> simp [handleDisconnect, hcu]

theorem removeSocketFromUser_only {m : List (String × List String)} {u s : String}
    (hset : assocGet m u = some [s]) :
    removeSocketFromUser m u s = assocSet m u [] := by
  unfold removeSocketFromUser
  rw [hset]
  simp

/-- Unfolding of the grace-timer body in the firing case (the user's socket
set is empty). -/
theorem graceFire_fire {st : HubState} {u : String}
    (h : assocGet st.activeUsers u = some []) :
    graceFire st u =
      ({ st with activeUsers := assocDelete st.activeUsers u,
                 activeCalls := st.activeCalls.filter
                   (fun p => !(p.2.participants.contains u)) },
       st.live.map (fun t => (t, SEvent.userOffline u))
         ++ (st.activeCalls.filter (fun p => p.2.participants.contains u)).flatMap (fun p =>
              match p.2.participants.find? (fun i => i ≠ u) with
              | none => []
              | some other =>
                emitEach st ((assocGet (assocDelete st.activeUsers u) other).getD [])
                  (SEvent.callEnded p.1 Reason.userDisconnected))) := by
  unfold graceFire
  rw [h]

/-- C2: when a user's only connection drops, the 2-second grace timer decides
the outcome.  If the same user re-registers (on any socket) before the timer
fires, the timer is a no-op: no `user-offline` is emitted and no call is torn
down.  If the timer fires with no re-registration, the user goes offline,
every other connected socket receives exactly one `user-offline`, and every
call involving the user is deleted with `call-ended`/`user-disconnected`
delivered to the other participant's connected registered sockets. -/
theorem disconnect_grace_behavior (users : List (String × String)) (st : HubState)
    (s u : String)
    (hcu : assocGet st.currentUser s = some u)
    (hset : assocGet st.activeUsers u = some [s])
    (hnd : st.live.Nodup)
    (hkeys : (st.activeCalls.map Prod.fst).Nodup) :
    (∀ s1,
      (handleRegister users (handleConnect (handleDisconnect st s) s1) s1 u).1.activeCalls
          = st.activeCalls ∧
      graceFire (handleRegister users (handleConnect (handleDisconnect st s) s1) s1 u).1 u
          = ((handleRegister users (handleConnect (handleDisconnect st s) s1) s1 u).1, []) ∧
      (∀ p ∈ (handleRegister users (handleConnect (handleDisconnect st s) s1) s1 u).2,
        ∀ v, p.2 ≠ SEvent.userOffline v)) ∧
    (isOnline (graceFire (handleDisconnect st s) u).1 u = false ∧
     (∀ t, t ∈ (handleDisconnect st s).live →
       (graceFire (handleDisconnect st s) u).2.countP
         (fun p => decide (p = (t, SEvent.userOffline u))) = 1) ∧
     (∀ cid c, assocGet st.activeCalls cid = some c → u ∈ c.participants →
       assocGet (graceFire (handleDisconnect st s) u).1.activeCalls cid = none) ∧
     (∀ cid c, assocGet st.activeCalls cid = some c →
       ∀ a b, c.participants = [a, b] → a ≠ b → u = a ∨ u = b →
       ∀ t, t ∈ socketsOf st (if u = a then b else a) → t ∈ (handleDisconnect st s).live →
         (t, SEvent.callEnded cid Reason.userDisconnected)
           ∈ (graceFire (handleDisconnect st s) u).2)) := by
  have hD := handleDisconnect_state st hcu
  have hDau : (handleDisconnect st s).activeUsers = assocSet st.activeUsers u [] := by
    rw [hD.2.1, removeSocketFromUser_only hset]
  have hDcalls := handleDisconnect_activeCalls st s
  have hDget : assocGet (handleDisconnect st s).activeUsers u = some [] := by
    rw [hDau]
    exact assocGet_set_self _ _ _
  constructor
  · intro s1
    refine ⟨?_, ?_, ?_⟩
    · rw [handleRegister_activeCalls, handleConnect_activeCalls, hDcalls]
    · refine graceFire_noop ?_
      exact List.ne_nil_of_mem (handleRegister_mem_self users
        (handleConnect (handleDisconnect st s) s1) s1 u)
    · intro p hp v
      unfold handleRegister at hp
      dsimp only at hp
      obtain ⟨x, hx, rfl⟩ := List.mem_map.1 hp
      simp
  · have hgf := graceFire_fire hDget
    refine ⟨?_, ?_, ?_, ?_⟩
    · rw [hgf]
      simp [isOnline, socketsOf, assocGet_delete]
    · intro t ht
      rw [hgf]
      rw [List.countP_append]
      have hoff : ((handleDisconnect st s).live.map
          (fun t0 => (t0, SEvent.userOffline u))).countP
            (fun p => decide (p = (t, SEvent.userOffline u))) = 1 := by
        rw [List.countP_map]
        have hfun : ((fun p => decide (p = (t, SEvent.userOffline u))) ∘
            (fun t0 => (t0, SEvent.userOffline u))) = (fun t0 => decide (t0 = t)) := by
          funext t0
          by_cases hx : t0 = t
          · simp [hx]
          · simp [hx]
        rw [hfun]
        exact countP_eq_one_of_nodup (hD.1 ▸ hnd.filter _) ht
      have hend : (((handleDisconnect st s).activeCalls.filter
          (fun p => p.2.participants.contains u)).flatMap (fun p =>
            match p.2.participants.find? (fun i => i ≠ u) with
            | none => []
            | some other =>
              emitEach (handleDisconnect st s)
                ((assocGet (assocDelete (handleDisconnect st s).activeUsers u) other).getD [])
                (SEvent.callEnded p.1 Reason.userDisconnected))).countP
            (fun p => decide (p = (t, SEvent.userOffline u))) = 0 := by
        refine List.countP_eq_zero.2 ?_
        intro q hq
        obtain ⟨pp, hpp, hqin⟩ := List.mem_flatMap.1 hq
        cases hfind : pp.2.participants.find? (fun i => i ≠ u) with
        | none =>
          rw [hfind] at hqin
          cases hqin
        | some other =>
          rw [hfind] at hqin
          obtain ⟨x, hx, rfl⟩ := List.mem_map.1 hqin
          simp
      rw [hoff, hend]
    · intro cid c hget hu
      rw [hgf]
      show assocGet ((handleDisconnect st s).activeCalls.filter
        (fun p => !(p.2.participants.contains u))) cid = none
      rw [hDcalls]
      rw [assocGet_filter_of_nodup _ hkeys hget]
      have hc : c.participants.contains u = true := List.elem_eq_true_of_mem hu
      simp [hc, hu]
    · intro cid c hget a b hparts hab huab t ht htl
      rw [hgf]
      refine List.mem_append.2 (Or.inr ?_)
      refine List.mem_flatMap.2 ⟨(cid, c), ?_, ?_⟩
      · refine List.mem_filter.2 ⟨?_, ?_⟩
        · rw [hDcalls]
          exact assocGet_mem hget
        · show (c.participants.contains u) = true
          rcases huab with rfl | rfl
          · exact List.elem_eq_true_of_mem (by rw [hparts]; exact List.mem_cons_self _ _)
          · exact List.elem_eq_true_of_mem
              (by rw [hparts]; exact List.mem_cons_of_mem _ (List.mem_cons_self _ _))
      · have hfind : c.participants.find? (fun i => i ≠ u)
            = some (if u = a then b else a) := by
          rw [hparts]
          by_cases hua : u = a
          · rw [if_pos hua]
            rw [List.find?_cons_of_neg _ (by simp [hua])]
            rw [List.find?_cons_of_pos _ (by simp [hua]; exact fun hh => hab hh.symm)]
          · rw [if_neg hua]
            rw [List.find?_cons_of_pos _ (by simp; exact fun hh => hua hh.symm)]
        rw [hfind]
        refine mem_emitEach.2 ⟨?_, List.elem_eq_true_of_mem htl, rfl⟩
        have hne : (if u = a then b else a) ≠ u := by
          by_cases hua : u = a
          · rw [if_pos hua, hua]
            exact fun hh => hab hh.symm
          · rw [if_neg hua]
            exact fun hh => hua hh.symm
        rw [assocGet_delete, if_neg hne, hDau, assocGet_set_ne _ _ hne]
        exact ht

/-- C2 witness: the grace behaviour at a concrete state with one active call
between "A" (socket "s1") and "B" (socket "s2"), after "s2" disconnects. -/
theorem disconnect_grace_behavior_witness :
    ((handleRegister sampleUsers (handleConnect (handleDisconnect
        (run sampleUsers HubState.init traceActiveCall) "s2") "s9") "s9" "B").1.activeCalls
      = (run sampleUsers HubState.init traceActiveCall).activeCalls) ∧
    (graceFire (handleRegister sampleUsers (handleConnect (handleDisconnect
        (run sampleUsers HubState.init traceActiveCall) "s2") "s9") "s9" "B").1 "B"
      = ((handleRegister sampleUsers (handleConnect (handleDisconnect
          (run sampleUsers HubState.init traceActiveCall) "s2") "s9") "s9" "B").1, [])) ∧
    (isOnline (graceFire (handleDisconnect
        (run sampleUsers HubState.init traceActiveCall) "s2") "B").1 "B" = false) ∧
    ((graceFire (handleDisconnect
        (run sampleUsers HubState.init traceActiveCall) "s2") "B").2.countP
        (fun p => decide (p = ("s1", SEvent.userOffline "B"))) = 1) ∧
    (assocGet (graceFire (handleDisconnect
        (run sampleUsers HubState.init traceActiveCall) "s2") "B").1.activeCalls "c1" = none) ∧
    (("s1", SEvent.callEnded "c1" Reason.userDisconnected)
      ∈ (graceFire (handleDisconnect
          (run sampleUsers HubState.init traceActiveCall) "s2") "B").2) := by
  have h := disconnect_grace_behavior sampleUsers (run sampleUsers HubState.init traceActiveCall)
    "s2" "B" (by decide) (by decide) (by decide) (by decide)
  exact ⟨(h.1 "s9").1, (h.1 "s9").2.1, h.2.1, h.2.2.1 "s1" (by decide),
    h.2.2.2.1 "c1" ⟨["A", "B"], CallStatus.active, 0⟩ (by decide) (by decide),
    h.2.2.2.2 "c1" ⟨["A", "B"], CallStatus.active, 0⟩ (by decide) "A" "B" rfl (by decide)
      (Or.inr rfl) "s1" (by decide) (by decide)⟩

end ChatHub
